import Mathlib

/-!
Verification of the player-membership core of `game_logic`
(`src/dna/zomes/game_logic/src/player_profile.rs`).

The DHT is modelled as an explicit state: a content-addressed list of
entries and an append-only list of tagged links.  The hosting runtime
(Holochain HDK) is modelled by an environment supplying the acting
agent's public key, the external game-code anchor resolver
(`get_game_anchor`, an external collaborator), the deterministic
content-hash function, and oracles deciding whether the entry write and
the link write are accepted by the substrate.  Each zome function is a
straight-line state transformer, faithful to the Rust source: failures
short-circuit via `Except`, reads never modify the state, and writes
prepend to the corresponding list.
-/

/-- An opaque content address (`EntryHash`). -/
abbrev Address := Nat

/-- The `PlayerProfile` entry: the agent's public key and the chosen
nickname (`pub struct PlayerProfile { pub id: AgentPubKey, pub nickname: String }`). -/
structure PlayerProfile where
  id : Nat
  nickname : String
deriving DecidableEq, Repr

/-- The input struct `JoinGameInfo { game_code, player_nickname }`. -/
structure JoinGameInfo where
  game_code : String
  player_nickname : String
deriving DecidableEq, Repr

/-- Content stored at an address in the untyped DHT: either a
`PlayerProfile` entry, or some other kind of content (anything whose
`to_app_option::<PlayerProfile>` decode fails or that is not an app entry). -/
inductive Content where
  | profile (p : PlayerProfile)
  | other (k : Nat)
deriving DecidableEq, Repr

/-- A directed tagged link in the DHT graph. -/
structure Link where
  base : Address
  target : Address
  tag : String
deriving DecidableEq, Repr

/-- The observable DHT state: content-addressed entries and links. -/
structure State where
  entries : List (Address × Content)
  links : List Link
deriving DecidableEq, Repr

/-- The error taxonomy of the membership core.  `invalidGameCode` is the
failure of the external anchor resolver, `writeFailure` a rejected
`create_entry`, `linkFailure` a rejected `create_link`,
`entryNotFound` the "Entry not found" error of `get_game_players`, and
`notPlayerProfile` its "The targeted entry is not agent pubkey" error. -/
inductive GameError where
  | invalidGameCode
  | writeFailure
  | linkFailure
  | entryNotFound
  | notPlayerProfile
deriving DecidableEq, Repr

/-- The hosting runtime: the acting agent's initial public key
(`agent_info().agent_initial_pubkey`), the external anchor resolver
`get_game_anchor` (an external collaborator; `none` means resolution
fails), the deterministic content hash `hash_entry`, and oracles for
whether the substrate accepts the entry write / the link write. -/
structure Env where
  agentPubKey : Nat
  resolveAnchor : String → Option Address
  hashEntry : PlayerProfile → Address
  entryWriteOk : PlayerProfile → Bool
  linkWriteOk : Link → Bool

/-- `pub const PLAYER_LINK_TAG: &str = "PLAYER";` -/
def PLAYER_LINK_TAG : String := "PLAYER"

/-- Content-addressed lookup (`get(address, GetOptions::default())`):
the first entry stored at the address, if any. -/
def lookupEntry : List (Address × Content) → Address → Option Content
  | [], _ => none
  | (b, c) :: rest, a => if b = a then some c else lookupEntry rest a

/-- `create_entry(&player_profile)`: if the substrate accepts the write,
the serialized profile is stored at its content address; otherwise the
call fails and the state is unchanged. -/
def create_entry_op (env : Env) (st : State) (p : PlayerProfile) :
    State × Except GameError Unit :=
  if env.entryWriteOk p then
    ({ st with entries := (env.hashEntry p, Content.profile p) :: st.entries },
     Except.ok ())
  else (st, Except.error GameError.writeFailure)

/-- `create_link(base, target, tag)`: if the substrate accepts the
write, the link is appended; otherwise the call fails, state unchanged. -/
def create_link_op (env : Env) (st : State) (base target : Address) (tag : String) :
    State × Except GameError Unit :=
  let l : Link := { base := base, target := target, tag := tag }
  if env.linkWriteOk l then
    ({ st with links := l :: st.links }, Except.ok ())
  else (st, Except.error GameError.linkFailure)

/-- `create_and_hash_entry_player_profile`: builds a `PlayerProfile`
from the acting agent's key and the given nickname, commits it via
`create_entry`, then returns `hash_entry(&player_profile)`. -/
def create_and_hash_entry_player_profile (env : Env) (st : State)
    (player_nickname : String) : State × Except GameError Address :=
  let player_profile : PlayerProfile :=
    { id := env.agentPubKey, nickname := player_nickname }
  match create_entry_op env st player_profile with
  | (st1, Except.error e) => (st1, Except.error e)
  | (st1, Except.ok _) => (st1, Except.ok (env.hashEntry player_profile))

/-- `join_game(game_info)`: resolve the game-code anchor, create and
hash the player profile, link anchor → profile with tag `PLAYER`,
return the anchor address.  Each `?` short-circuits, leaving the side
effects of the steps already completed in place. -/
def join_game (env : Env) (st : State) (game_info : JoinGameInfo) :
    State × Except GameError Address :=
  match env.resolveAnchor game_info.game_code with
  | none => (st, Except.error GameError.invalidGameCode)
  | some game_anchor =>
    match create_and_hash_entry_player_profile env st game_info.player_nickname with
    | (st1, Except.error e) => (st1, Except.error e)
    | (st1, Except.ok player_profile_entry_hash) =>
      match create_link_op env st1 game_anchor player_profile_entry_hash
          PLAYER_LINK_TAG with
      | (st2, Except.error e) => (st2, Except.error e)
      | (st2, Except.ok _) => (st2, Except.ok game_anchor)

/-- `get_links(base, Some(tag))`: all links with the given base and tag,
in enumeration order. -/
def get_links_op (st : State) (base : Address) (tag : String) : List Link :=
  st.links.filter (fun l => l.base == base && l.tag == tag)

/-- One iteration of the `get_game_players` loop body: dereference
`link.target` (`Entry not found` if the address does not resolve) and
decode the content as a `PlayerProfile` (`The targeted entry is not
agent pubkey` if it is some other content). -/
def fetch_player_profile (st : State) (l : Link) : Except GameError PlayerProfile :=
  match lookupEntry st.entries l.target with
  | none => Except.error GameError.entryNotFound
  | some (Content.profile p) => Except.ok p
  | some (Content.other _) => Except.error GameError.notPlayerProfile

/-- The `get_game_players` loop: fetch each link's profile in order,
aborting the whole call on the first per-link failure. -/
def fetch_all (st : State) : List Link → Except GameError (List PlayerProfile)
  | [] => Except.ok []
  | l :: rest =>
    match fetch_player_profile st l with
    | Except.error e => Except.error e
    | Except.ok p =>
      match fetch_all st rest with
      | Except.error e => Except.error e
      | Except.ok ps => Except.ok (p :: ps)

/-- `get_game_players(game_code)`: resolve the anchor, enumerate its
`PLAYER`-tagged links, and materialize the linked profiles.  Every HDK
call on this path is a read, so the state is returned unchanged. -/
def get_game_players (env : Env) (st : State) (game_code : String) :
    State × Except GameError (List PlayerProfile) :=
  match env.resolveAnchor game_code with
  | none => (st, Except.error GameError.invalidGameCode)
  | some game_anchor =>
    (st, fetch_all st (get_links_op st game_anchor PLAYER_LINK_TAG))

/-- Decidable equality for `Except`, so concrete runs can be checked by
`decide`. -/
instance {ε α : Type} [DecidableEq ε] [DecidableEq α] : DecidableEq (Except ε α) :=
  fun x y =>
    match x, y with
    | Except.ok a, Except.ok b =>
      if h : a = b then Decidable.isTrue (by rw [h])
      else Decidable.isFalse (by simp [h])
    | Except.error a, Except.error b =>
      if h : a = b then Decidable.isTrue (by rw [h])
      else Decidable.isFalse (by simp [h])
    | Except.ok _, Except.error _ => Decidable.isFalse (by simp)
    | Except.error _, Except.ok _ => Decidable.isFalse (by simp)

/-- A successful `lookupEntry` finds a stored pair. -/
theorem lookupEntry_mem {es : List (Address × Content)} {a : Address} {c : Content}
    (h : lookupEntry es a = some c) : (a, c) ∈ es := by
  induction es with
  | nil => simp [lookupEntry] at h
  | cons hd tl ih =>
    obtain ⟨b, c0⟩ := hd
    rw [lookupEntry] at h
    split at h
    · rename_i hb
      subst hb
      simp at h
      subst h
      exact List.mem_cons_self _ _
    · exact List.mem_cons_of_mem _ (ih h)

/-- Characterization of a successful `join_game` run: the anchor
resolved, both writes were accepted, and the final state is the initial
state with exactly one new profile entry and one new `PLAYER` link. -/
theorem join_game_ok {env : Env} {st : State} {gi : JoinGameInfo} {st' : State}
    {addr : Address} (h : join_game env st gi = (st', Except.ok addr)) :
    env.resolveAnchor gi.game_code = some addr ∧
    env.entryWriteOk { id := env.agentPubKey, nickname := gi.player_nickname } = true ∧
    env.linkWriteOk
      { base := addr,
        target := env.hashEntry { id := env.agentPubKey, nickname := gi.player_nickname },
        tag := PLAYER_LINK_TAG } = true ∧
    st' = { entries :=
              (env.hashEntry { id := env.agentPubKey, nickname := gi.player_nickname },
               Content.profile { id := env.agentPubKey, nickname := gi.player_nickname })
              :: st.entries,
            links :=
              { base := addr,
                target := env.hashEntry { id := env.agentPubKey, nickname := gi.player_nickname },
                tag := PLAYER_LINK_TAG } :: st.links } := by
  cases hres : env.resolveAnchor gi.game_code with
  | none =>
    rw [join_game, hres] at h
    exact absurd h (by simp)
  | some anchor =>
    rw [join_game, hres] at h
    rw [create_and_hash_entry_player_profile, create_entry_op] at h
    cases hw : env.entryWriteOk { id := env.agentPubKey, nickname := gi.player_nickname } with
    | false =>
      rw [hw] at h
      simp at h
    | true =>
      rw [hw] at h
      simp only [if_true, Bool.true_eq] at h
      rw [create_link_op] at h
      cases hl : env.linkWriteOk
          { base := anchor,
            target := env.hashEntry { id := env.agentPubKey, nickname := gi.player_nickname },
            tag := PLAYER_LINK_TAG } with
      | false =>
        rw [hl] at h
        simp at h
      | true =>
        rw [hl] at h
        simp only [if_true, Bool.true_eq] at h
        rw [Prod.mk.injEq] at h
        obtain ⟨hst, haddr⟩ := h
        injection haddr with haddr
        subst haddr
        exact ⟨rfl, rfl, hl, hst.symm⟩

/-- If the anchor resolver fails, `join_game` writes nothing and returns
the resolver failure. -/
theorem join_game_resolve_fail {env : Env} (st : State) {gi : JoinGameInfo}
    (hres : env.resolveAnchor gi.game_code = none) :
    join_game env st gi = (st, Except.error GameError.invalidGameCode) := by
  rw [join_game, hres]

/-- If the anchor resolves but the entry write is rejected, `join_game`
returns `writeFailure` and writes nothing (no entry, no link). -/
theorem join_game_write_fail {env : Env} (st : State) {gi : JoinGameInfo} {anchor : Address}
    (hres : env.resolveAnchor gi.game_code = some anchor)
    (hw : env.entryWriteOk { id := env.agentPubKey, nickname := gi.player_nickname } = false) :
    join_game env st gi = (st, Except.error GameError.writeFailure) := by
  rw [join_game, hres, create_and_hash_entry_player_profile, create_entry_op, hw]
  simp

/-- If the entry write succeeds but the link write is rejected,
`join_game` returns `linkFailure`, the new profile entry stands, and the
link set is untouched. -/
theorem join_game_link_fail {env : Env} (st : State) {gi : JoinGameInfo} {anchor : Address}
    (hres : env.resolveAnchor gi.game_code = some anchor)
    (hw : env.entryWriteOk { id := env.agentPubKey, nickname := gi.player_nickname } = true)
    (hl : env.linkWriteOk
      { base := anchor,
        target := env.hashEntry { id := env.agentPubKey, nickname := gi.player_nickname },
        tag := PLAYER_LINK_TAG } = false) :
    join_game env st gi =
      ({ entries :=
           (env.hashEntry { id := env.agentPubKey, nickname := gi.player_nickname },
            Content.profile { id := env.agentPubKey, nickname := gi.player_nickname })
           :: st.entries,
         links := st.links },
       Except.error GameError.linkFailure) := by
  rw [join_game, hres, create_and_hash_entry_player_profile, create_entry_op, hw]
  simp only [if_true, Bool.true_eq]
  rw [create_link_op, hl]
  simp

/-- Characterization of a successful `create_and_hash_entry_player_profile`:
the returned address is the content hash of the profile built from the
agent key and the nickname, exactly that profile was persisted, and no
link was touched. -/
theorem create_and_hash_ok {env : Env} {st : State} {name : String} {st' : State}
    {addr : Address}
    (h : create_and_hash_entry_player_profile env st name = (st', Except.ok addr)) :
    addr = env.hashEntry { id := env.agentPubKey, nickname := name } ∧
    st'.entries =
      (addr, Content.profile { id := env.agentPubKey, nickname := name }) :: st.entries ∧
    st'.links = st.links := by
  rw [create_and_hash_entry_player_profile, create_entry_op] at h
  cases hw : env.entryWriteOk { id := env.agentPubKey, nickname := name } with
  | false =>
    rw [hw] at h
    simp at h
  | true =>
    rw [hw] at h
    simp only [if_true, Bool.true_eq] at h
    rw [Prod.mk.injEq] at h
    obtain ⟨hst, haddr⟩ := h
    injection haddr with haddr
    subst haddr
    rw [← hst]
    exact ⟨rfl, rfl, rfl⟩

/-- A link is enumerated by `get_links_op` exactly when it is stored and
carries the requested base and tag. -/
theorem get_links_mem (st : State) (base : Address) (tag : String) (l : Link) :
    l ∈ get_links_op st base tag ↔ l ∈ st.links ∧ l.base = base ∧ l.tag = tag := by
  simp [get_links_op, List.mem_filter]

/-- `get_links_op` reads only the link set. -/
theorem get_links_links_eq {st st' : State} (h : st'.links = st.links)
    (base : Address) (tag : String) :
    get_links_op st' base tag = get_links_op st base tag := by
  rw [get_links_op, get_links_op, h]

/-- Prepending a link matching the query puts it at the head of the
enumeration. -/
theorem get_links_cons {st st' : State} {lnk : Link}
    (h : st'.links = lnk :: st.links) (hb : lnk.base = base) (ht : lnk.tag = tag) :
    get_links_op st' base tag = lnk :: get_links_op st base tag := by
  rw [get_links_op, get_links_op, h, List.filter_cons]
  simp [hb, ht]

/-- Extending the entry list with content at an address that, by
content-address consistency, can only already hold that same content
preserves every successful per-link fetch. -/
theorem fetch_profile_extend {st st' : State} {hp : Address} {p : PlayerProfile}
    (hst : st'.entries = (hp, Content.profile p) :: st.entries)
    (hcoll : ∀ c, (hp, c) ∈ st.entries → c = Content.profile p)
    {l : Link} {q : PlayerProfile}
    (h : fetch_player_profile st l = Except.ok q) :
    fetch_player_profile st' l = Except.ok q := by
  rw [fetch_player_profile] at h ⊢
  rw [hst, lookupEntry]
  by_cases he : hp = l.target
  · subst he
    rw [if_pos rfl]
    cases hlk : lookupEntry st.entries l.target with
    | none => rw [hlk] at h; exact absurd h (by simp)
    | some c =>
      rw [hlk] at h
      have hc : c = Content.profile p := hcoll c (lookupEntry_mem hlk)
      subst hc
      exact h
  · rw [if_neg he]
    exact h

/-- Extending the entry list at an address no link in sight targets
leaves every per-link fetch unchanged. -/
theorem fetch_profile_ne {st st' : State} {hp : Address} {c0 : Content}
    (hst : st'.entries = (hp, c0) :: st.entries)
    {l : Link} (hne : l.target ≠ hp) :
    fetch_player_profile st' l = fetch_player_profile st l := by
  rw [fetch_player_profile, fetch_player_profile, hst, lookupEntry,
    if_neg (fun h => hne h.symm)]

/-- `fetch_all` is pointwise: equal per-link fetches give equal runs. -/
theorem fetch_all_congr {st st' : State} {ls : List Link}
    (h : ∀ l ∈ ls, fetch_player_profile st' l = fetch_player_profile st l) :
    fetch_all st' ls = fetch_all st ls := by
  induction ls with
  | nil => rfl
  | cons l rest ih =>
    rw [fetch_all, fetch_all, h l (List.mem_cons_self _ _),
      ih (fun x hx => h x (List.mem_cons_of_mem _ hx))]

/-- A successful `fetch_all` run survives a content-consistent entry
extension. -/
theorem fetch_all_extend {st st' : State} {hp : Address} {p : PlayerProfile}
    (hst : st'.entries = (hp, Content.profile p) :: st.entries)
    (hcoll : ∀ c, (hp, c) ∈ st.entries → c = Content.profile p)
    {ls : List Link} {ps : List PlayerProfile}
    (h : fetch_all st ls = Except.ok ps) :
    fetch_all st' ls = Except.ok ps := by
  induction ls generalizing ps with
  | nil => rw [fetch_all] at h ⊢; exact h
  | cons l rest ih =>
    rw [fetch_all] at h
    cases hf : fetch_player_profile st l with
    | error e => rw [hf] at h; exact absurd h (by simp)
    | ok q =>
      rw [hf] at h
      cases hr : fetch_all st rest with
      | error e => rw [hr] at h; exact absurd h (by simp)
      | ok qs =>
        rw [hr] at h
        simp at h
        rw [fetch_all, fetch_profile_extend hst hcoll hf, ih hr]
        rw [← h]

/-- A successful `fetch_all` returns one profile per link, in order. -/
theorem fetch_all_spec {st : State} {ls : List Link} {ps : List PlayerProfile}
    (h : fetch_all st ls = Except.ok ps) :
    ps.length = ls.length ∧
    ∀ i (hi : i < ls.length) (hi' : i < ps.length),
      fetch_player_profile st (ls.get ⟨i, hi⟩) = Except.ok (ps.get ⟨i, hi'⟩) := by
  induction ls generalizing ps with
  | nil =>
    rw [fetch_all] at h
    injection h with h
    subst h
    exact ⟨rfl, fun i hi => absurd hi (Nat.not_lt_zero i)⟩
  | cons l rest ih =>
    rw [fetch_all] at h
    cases hf : fetch_player_profile st l with
    | error e => rw [hf] at h; exact absurd h (by simp)
    | ok q =>
      rw [hf] at h
      cases hr : fetch_all st rest with
      | error e => rw [hr] at h; exact absurd h (by simp)
      | ok qs =>
        rw [hr] at h
        injection h with h
        subst h
        obtain ⟨hlen, hidx⟩ := ih hr
        refine ⟨by simp [hlen], ?_⟩
        intro i hi hi'
        cases i with
        | zero => simpa using hf
        | succ j =>
          simp only [List.get_cons_succ]
          exact hidx j (Nat.lt_of_succ_lt_succ hi) (Nat.lt_of_succ_lt_succ hi')

/-- Every profile returned by a successful `fetch_all` was fetched from
one of the enumerated links. -/
theorem fetch_all_mem {st : State} {ls : List Link} {ps : List PlayerProfile}
    (h : fetch_all st ls = Except.ok ps) {q : PlayerProfile} (hq : q ∈ ps) :
    ∃ l ∈ ls, fetch_player_profile st l = Except.ok q := by
  induction ls generalizing ps with
  | nil =>
    rw [fetch_all] at h
    injection h with h
    subst h
    exact absurd hq (List.not_mem_nil q)
  | cons l rest ih =>
    rw [fetch_all] at h
    cases hf : fetch_player_profile st l with
    | error e => rw [hf] at h; exact absurd h (by simp)
    | ok q0 =>
      rw [hf] at h
      cases hr : fetch_all st rest with
      | error e => rw [hr] at h; exact absurd h (by simp)
      | ok qs =>
        rw [hr] at h
        injection h with h
        subst h
        rcases List.mem_cons.mp hq with hq | hq
        · exact ⟨l, List.mem_cons_self _ _, hq ▸ hf⟩
        · obtain ⟨l0, hl0, hfl0⟩ := ih hr hq
          exact ⟨l0, List.mem_cons_of_mem _ hl0, hfl0⟩

/-- If the fetch of the link at position `i` fails while every earlier
fetch succeeds, the whole `fetch_all` run returns that first error. -/
theorem fetch_all_error_at {st : State} {ls : List Link} {e : GameError} {i : Nat}
    (hi : i < ls.length)
    (herr : fetch_player_profile st (ls.get ⟨i, hi⟩) = Except.error e)
    (hprev : ∀ j (hj : j < i),
      ∃ q, fetch_player_profile st (ls.get ⟨j, Nat.lt_trans hj hi⟩) = Except.ok q) :
    fetch_all st ls = Except.error e := by
  induction ls generalizing i with
  | nil => exact absurd hi (Nat.not_lt_zero i)
  | cons l rest ih =>
    cases i with
    | zero =>
      have herr0 : fetch_player_profile st l = Except.error e := herr
      rw [fetch_all, herr0]
    | succ j =>
      obtain ⟨q, hq⟩ := hprev 0 (Nat.succ_pos j)
      have hq0 : fetch_player_profile st l = Except.ok q := hq
      have herr1 :
          fetch_player_profile st (rest.get ⟨j, Nat.lt_of_succ_lt_succ hi⟩) =
            Except.error e := herr
      rw [fetch_all, hq0]
      rw [ih (Nat.lt_of_succ_lt_succ hi) herr1
        (fun k hk => by
          obtain ⟨q1, hq1⟩ := hprev (k + 1) (Nat.succ_lt_succ hk)
          have hq2 :
              fetch_player_profile st
                (rest.get ⟨k, Nat.lt_trans hk (Nat.lt_of_succ_lt_succ hi)⟩) =
                Except.ok q1 := hq1
          exact ⟨q1, hq2⟩)]

/-- When the anchor resolves, `get_game_players` is the fail-fast fetch
of the anchor's `PLAYER`-tagged links, with the state untouched. -/
theorem get_game_players_eq {env : Env} (st : State) {code : String} {anchor : Address}
    (hres : env.resolveAnchor code = some anchor) :
    get_game_players env st code =
      (st, fetch_all st (get_links_op st anchor PLAYER_LINK_TAG)) := by
  rw [get_game_players, hres]

/-- The empty DHT state. -/
def stEmpty : State := { entries := [], links := [] }

/-- A concrete runtime: agent key 7, the resolver maps game code "ABC"
to anchor 100, content hashing is injective on the profiles used below,
and the substrate accepts all writes. -/
def envA : Env :=
  { agentPubKey := 7,
    resolveAnchor := fun c => if c = "ABC" then some 100 else none,
    hashEntry := fun p => 200 + p.id + p.nickname.length,
    entryWriteOk := fun _ => true,
    linkWriteOk := fun _ => true }

/-- Like `envA` but the substrate rejects every entry write. -/
def envB : Env := { envA with entryWriteOk := fun _ => false }

/-- Like `envA` but the substrate rejects every link write. -/
def envC : Env := { envA with linkWriteOk := fun _ => false }

/-- The profile agent 7 gets when joining with nickname "Al";
`envA.hashEntry` places it at address 209. -/
def profAl : PlayerProfile := { id := 7, nickname := "Al" }

/-- The link created by a successful join of "Al" into game "ABC". -/
def lnkAl : Link := { base := 100, target := 209, tag := "PLAYER" }

/-- The state after `join_game envA stEmpty ⟨"ABC", "Al"⟩`. -/
def st1 : State :=
  { entries := [(209, Content.profile profAl)], links := [lnkAl] }

/-- The state after the profile write of a join whose link write failed. -/
def st2 : State :=
  { entries := [(209, Content.profile profAl)], links := [] }

/-- The state after joining "Al" into "ABC" twice. -/
def st3 : State :=
  { entries := [(209, Content.profile profAl), (209, Content.profile profAl)],
    links := [lnkAl, lnkAl] }

/-- A state with a dangling `PLAYER` link: target 5 stores no entry. -/
def stBad : State :=
  { entries := [], links := [{ base := 100, target := 5, tag := "PLAYER" }] }

/-- Reading back the links after a successful join: the new profile is
fetched first (its entry heads the store), and the old links still
produce the old list, so the result is the new profile consed onto the
previous member list. -/
theorem fetch_after_join {env : Env} {st : State} {addr : Address} {p : PlayerProfile}
    (hcoll : ∀ c, (env.hashEntry p, c) ∈ st.entries → c = Content.profile p)
    {before : List PlayerProfile}
    (hb : fetch_all st (get_links_op st addr PLAYER_LINK_TAG) = Except.ok before) :
    fetch_all
      { entries := (env.hashEntry p, Content.profile p) :: st.entries,
        links := { base := addr, target := env.hashEntry p, tag := PLAYER_LINK_TAG }
          :: st.links }
      (get_links_op
        { entries := (env.hashEntry p, Content.profile p) :: st.entries,
          links := { base := addr, target := env.hashEntry p, tag := PLAYER_LINK_TAG }
            :: st.links }
        addr PLAYER_LINK_TAG) = Except.ok (p :: before) := by
  have hlinks :
      get_links_op
        { entries := (env.hashEntry p, Content.profile p) :: st.entries,
          links := { base := addr, target := env.hashEntry p, tag := PLAYER_LINK_TAG }
            :: st.links }
        addr PLAYER_LINK_TAG =
      { base := addr, target := env.hashEntry p, tag := PLAYER_LINK_TAG }
        :: get_links_op st addr PLAYER_LINK_TAG :=
    get_links_cons rfl rfl rfl
  rw [hlinks, fetch_all]
  have hf : fetch_player_profile
      { entries := (env.hashEntry p, Content.profile p) :: st.entries,
        links := { base := addr, target := env.hashEntry p, tag := PLAYER_LINK_TAG }
          :: st.links }
      { base := addr, target := env.hashEntry p, tag := PLAYER_LINK_TAG } =
      Except.ok p := by
    rw [fetch_player_profile]
    simp [lookupEntry]
  rw [hf, fetch_all_extend rfl hcoll hb]

/-- C1: if `join_game(code, name)` succeeds on a state where
`get_game_players(code)` succeeded with result `before`, and the new
profile's content address is consistent with the store (content holds
there only if it is that very profile), then `get_game_players(code)`
afterwards returns the new profile prepended to `before` — exactly one
more record with that display name than before the join. -/
theorem C1_join_adds_exactly_one_member
    (env : Env) (st : State) (code name : String) (st' : State) (addr : Address)
    (before : List PlayerProfile)
    (hbefore : get_game_players env st code = (st, Except.ok before))
    (hjoin : join_game env st { game_code := code, player_nickname := name } =
      (st', Except.ok addr))
    (hcoll : ∀ c,
      (env.hashEntry { id := env.agentPubKey, nickname := name }, c) ∈ st.entries →
      c = Content.profile { id := env.agentPubKey, nickname := name }) :
    get_game_players env st' code =
      (st', Except.ok ({ id := env.agentPubKey, nickname := name } :: before)) ∧
    List.countP (fun q => q.nickname == name)
        ({ id := env.agentPubKey, nickname := name } :: before) =
      List.countP (fun q => q.nickname == name) before + 1 := by
  obtain ⟨hres0, hw0, hl0, hst0⟩ := join_game_ok hjoin
  have hres : env.resolveAnchor code = some addr := hres0
  have hst : st' =
      { entries :=
          (env.hashEntry { id := env.agentPubKey, nickname := name },
           Content.profile { id := env.agentPubKey, nickname := name }) :: st.entries,
        links :=
          { base := addr,
            target := env.hashEntry { id := env.agentPubKey, nickname := name },
            tag := PLAYER_LINK_TAG } :: st.links } := hst0
  subst hst
  rw [get_game_players_eq st hres] at hbefore
  have hb : fetch_all st (get_links_op st addr PLAYER_LINK_TAG) = Except.ok before := by
    have h2 := congrArg Prod.snd hbefore
    simpa using h2
  constructor
  · rw [get_game_players_eq _ hres]
    rw [Prod.mk.injEq]
    exact ⟨rfl, fetch_after_join hcoll hb⟩
  · simp [List.countP_cons]

/-- C1 witness: joining "Al" into the fresh game "ABC" makes the member
list go from empty to exactly the one new profile. -/
theorem C1_witness :
    get_game_players envA st1 "ABC" =
      (st1, Except.ok (({ id := envA.agentPubKey, nickname := "Al" } : PlayerProfile) :: [])) ∧
    List.countP (fun q : PlayerProfile => q.nickname == "Al")
        (({ id := envA.agentPubKey, nickname := "Al" } : PlayerProfile) :: []) =
      List.countP (fun q : PlayerProfile => q.nickname == "Al") ([] : List PlayerProfile) + 1 :=
  C1_join_adds_exactly_one_member envA stEmpty "ABC" "Al" st1 100 []
    (by decide) (by decide)
    (by intro c hc; exact absurd hc (List.not_mem_nil _))

/-- C2: `join_game` runs its steps in order with a short-circuit policy:
a resolver failure yields `invalidGameCode` with the state untouched (no
record, no link), and a rejected entry write after a successful
resolution yields `writeFailure` with the state untouched (no link). -/
theorem C2_join_short_circuit (env : Env) (st : State) (gi : JoinGameInfo) :
    (env.resolveAnchor gi.game_code = none →
      join_game env st gi = (st, Except.error GameError.invalidGameCode)) ∧
    (∀ anchor, env.resolveAnchor gi.game_code = some anchor →
      env.entryWriteOk { id := env.agentPubKey, nickname := gi.player_nickname } = false →
      join_game env st gi = (st, Except.error GameError.writeFailure)) :=
  ⟨fun h => join_game_resolve_fail st h,
   fun _ hres hw => join_game_write_fail st hres hw⟩

/-- C2 witness: with an unresolvable code the join reports
`invalidGameCode` leaving the empty state empty; with a rejected entry
write it reports `writeFailure` leaving the empty state empty. -/
theorem C2_witness :
    join_game envA stEmpty { game_code := "XYZ", player_nickname := "Al" } =
      (stEmpty, Except.error GameError.invalidGameCode) ∧
    join_game envB stEmpty { game_code := "ABC", player_nickname := "Al" } =
      (stEmpty, Except.error GameError.writeFailure) :=
  ⟨(C2_join_short_circuit envA stEmpty
      { game_code := "XYZ", player_nickname := "Al" }).1 (by decide),
   (C2_join_short_circuit envB stEmpty
      { game_code := "ABC", player_nickname := "Al" }).2 100 (by decide) (by decide)⟩

/-- C3: `get_game_players` is fail-fast: if the fetch of the link at
position `i` of the enumeration fails while every earlier fetch
succeeds, the whole call returns that first per-link error and no
partial member list. -/
theorem C3_list_members_fail_fast
    (env : Env) (st : State) (code : String) (anchor : Address) (e : GameError) (i : Nat)
    (hres : env.resolveAnchor code = some anchor)
    (hi : i < (get_links_op st anchor PLAYER_LINK_TAG).length)
    (herr : fetch_player_profile st
      ((get_links_op st anchor PLAYER_LINK_TAG).get ⟨i, hi⟩) = Except.error e)
    (hprev : ∀ j (hj : j < i), ∃ q,
      fetch_player_profile st
        ((get_links_op st anchor PLAYER_LINK_TAG).get ⟨j, Nat.lt_trans hj hi⟩) =
        Except.ok q) :
    get_game_players env st code = (st, Except.error e) := by
  rw [get_game_players_eq st hres, fetch_all_error_at hi herr hprev]

/-- C3 witness: a game whose only `PLAYER` link dangles makes the whole
listing fail with the per-link "Entry not found" error. -/
theorem C3_witness :
    get_game_players envA stBad "ABC" = (stBad, Except.error GameError.entryNotFound) :=
  C3_list_members_fail_fast envA stBad "ABC" 100 GameError.entryNotFound 0
    (by decide) (by decide) (by decide)
    (fun j hj => absurd hj (Nat.not_lt_zero j))

/-- C4: a successful `join_game` returns exactly the anchor address the
resolver produced for the request's game code, and that same address is
the base of the link it created, so the caller can chain into a
membership read without re-resolving the code. -/
theorem C4_join_returns_resolved_anchor
    (env : Env) (st : State) (gi : JoinGameInfo) (st' : State) (addr : Address)
    (h : join_game env st gi = (st', Except.ok addr)) :
    env.resolveAnchor gi.game_code = some addr ∧
    ∃ t, st'.links =
      { base := addr, target := t, tag := PLAYER_LINK_TAG } :: st.links := by
  obtain ⟨hres, _, _, hst⟩ := join_game_ok h
  exact ⟨hres,
    ⟨env.hashEntry { id := env.agentPubKey, nickname := gi.player_nickname },
     by rw [hst]⟩⟩

/-- C4 witness: joining "Al" into "ABC" returns anchor 100, the address
"ABC" resolves to and the base of the link that was created. -/
theorem C4_witness :
    envA.resolveAnchor "ABC" = some 100 ∧
    ∃ t, st1.links =
      { base := 100, target := t, tag := PLAYER_LINK_TAG } :: stEmpty.links :=
  C4_join_returns_resolved_anchor envA stEmpty
    { game_code := "ABC", player_nickname := "Al" } st1 100 (by decide)

/-- C5: a successful `create_and_hash_entry_player_profile` builds the
profile from the runtime-supplied agent key (not from input data) and
the given nickname, persists exactly that record, creates no link, and
returns the record's content address. -/
theorem C5_create_identity_spec
    (env : Env) (st : State) (name : String) (st' : State) (addr : Address)
    (h : create_and_hash_entry_player_profile env st name = (st', Except.ok addr)) :
    addr = env.hashEntry { id := env.agentPubKey, nickname := name } ∧
    st'.entries =
      (addr, Content.profile { id := env.agentPubKey, nickname := name }) :: st.entries ∧
    st'.links = st.links :=
  create_and_hash_ok h

/-- C5 witness: registering "Al" under `envA` persists the profile of
agent 7 at its content address 209 and returns 209. -/
theorem C5_witness :
    (209 : Address) = envA.hashEntry { id := envA.agentPubKey, nickname := "Al" } ∧
    st2.entries =
      ((209 : Address),
        Content.profile { id := envA.agentPubKey, nickname := "Al" }) :: stEmpty.entries ∧
    st2.links = stEmpty.links :=
  C5_create_identity_spec envA stEmpty "Al" st2 209 (by decide)

/-- C6: the constant `PLAYER_LINK_TAG` is the string "PLAYER"; every
link a successful `join_game` creates carries it; and `get_game_players`
reads exactly the links of the resolved anchor that carry it — the two
operations share the one constant tag. -/
theorem C6_single_player_tag :
    PLAYER_LINK_TAG = "PLAYER" ∧
    (∀ (env : Env) (st : State) (gi : JoinGameInfo) (st' : State) (addr : Address),
      join_game env st gi = (st', Except.ok addr) →
      ∃ t, st'.links =
        { base := addr, target := t, tag := PLAYER_LINK_TAG } :: st.links) ∧
    (∀ (env : Env) (st : State) (code : String) (anchor : Address),
      env.resolveAnchor code = some anchor →
      get_game_players env st code =
        (st, fetch_all st (get_links_op st anchor PLAYER_LINK_TAG))) ∧
    (∀ (st : State) (base : Address) (l : Link),
      l ∈ get_links_op st base PLAYER_LINK_TAG ↔
        l ∈ st.links ∧ l.base = base ∧ l.tag = PLAYER_LINK_TAG) :=
  ⟨rfl,
   fun env st gi st' addr h => by
     obtain ⟨_, _, _, hst⟩ := join_game_ok h
     exact ⟨env.hashEntry { id := env.agentPubKey, nickname := gi.player_nickname },
       by rw [hst]⟩,
   fun env st code anchor hres => get_game_players_eq st hres,
   fun st base l => get_links_mem st base PLAYER_LINK_TAG l⟩

/-- C6 witness: the concrete join of "Al" into "ABC" created a
`PLAYER`-tagged link, and the concrete read path enumerates exactly the
anchor's `PLAYER`-tagged links. -/
theorem C6_witness :
    PLAYER_LINK_TAG = "PLAYER" ∧
    (∃ t, st1.links =
      { base := 100, target := t, tag := PLAYER_LINK_TAG } :: stEmpty.links) ∧
    get_game_players envA st1 "ABC" =
      (st1, fetch_all st1 (get_links_op st1 100 PLAYER_LINK_TAG)) ∧
    (lnkAl ∈ get_links_op st1 100 PLAYER_LINK_TAG ↔
      lnkAl ∈ st1.links ∧ lnkAl.base = 100 ∧ lnkAl.tag = PLAYER_LINK_TAG) :=
  ⟨C6_single_player_tag.1,
   C6_single_player_tag.2.1 envA stEmpty
     { game_code := "ABC", player_nickname := "Al" } st1 100 (by decide),
   C6_single_player_tag.2.2.1 envA st1 "ABC" 100 (by decide),
   C6_single_player_tag.2.2.2 st1 100 lnkAl⟩

/-- C7: a successful `get_game_players` returns one decoded record per
enumerated `PLAYER` link, in enumeration order (same length, i-th
element fetched from the i-th link), so every returned record sits at
the target of some link from the resolved anchor. -/
theorem C7_one_record_per_link
    (env : Env) (st : State) (code : String) (anchor : Address)
    (ps : List PlayerProfile)
    (hres : env.resolveAnchor code = some anchor)
    (hok : get_game_players env st code = (st, Except.ok ps)) :
    ps.length = (get_links_op st anchor PLAYER_LINK_TAG).length ∧
    (∀ i (hi : i < (get_links_op st anchor PLAYER_LINK_TAG).length)
        (hi2 : i < ps.length),
      fetch_player_profile st ((get_links_op st anchor PLAYER_LINK_TAG).get ⟨i, hi⟩) =
        Except.ok (ps.get ⟨i, hi2⟩)) ∧
    (∀ q ∈ ps, ∃ l, l ∈ st.links ∧ l.base = anchor ∧ l.tag = PLAYER_LINK_TAG ∧
      lookupEntry st.entries l.target = some (Content.profile q)) := by
  rw [get_game_players_eq st hres] at hok
  have hfa : fetch_all st (get_links_op st anchor PLAYER_LINK_TAG) = Except.ok ps := by
    have h2 := congrArg Prod.snd hok
    simpa using h2
  obtain ⟨hlen, hidx⟩ := fetch_all_spec hfa
  refine ⟨hlen, hidx, ?_⟩
  intro q hq
  obtain ⟨l, hl, hfl⟩ := fetch_all_mem hfa hq
  obtain ⟨hmem, hb, ht⟩ := (get_links_mem st anchor PLAYER_LINK_TAG l).mp hl
  refine ⟨l, hmem, hb, ht, ?_⟩
  rw [fetch_player_profile] at hfl
  cases hlk : lookupEntry st.entries l.target with
  | none => rw [hlk] at hfl; exact absurd hfl (by simp)
  | some c =>
    rw [hlk] at hfl
    cases c with
    | profile p =>
      injection hfl with hpq
      rw [hpq]
    | other k => exact absurd hfl (by simp)

/-- C7 witness: with one `PLAYER` link the listing has length one and
its single record is fetched from that link's target. -/
theorem C7_witness :
    ([profAl] : List PlayerProfile).length =
      (get_links_op st1 100 PLAYER_LINK_TAG).length ∧
    (∀ i (hi : i < (get_links_op st1 100 PLAYER_LINK_TAG).length)
        (hi2 : i < ([profAl] : List PlayerProfile).length),
      fetch_player_profile st1 ((get_links_op st1 100 PLAYER_LINK_TAG).get ⟨i, hi⟩) =
        Except.ok (([profAl] : List PlayerProfile).get ⟨i, hi2⟩)) ∧
    (∀ q ∈ ([profAl] : List PlayerProfile), ∃ l,
      l ∈ st1.links ∧ l.base = 100 ∧ l.tag = PLAYER_LINK_TAG ∧
      lookupEntry st1.entries l.target = some (Content.profile q)) :=
  C7_one_record_per_link envA st1 "ABC" 100 [profAl] (by decide) (by decide)

/-- C8: if the entry write of a join succeeds but the link write is
rejected, the join reports `linkFailure`; the persisted profile stays
retrievable at its content address, yet no link was added, and — the
new entry's address not being the target of any stored link — every
`get_game_players` call returns exactly what it returned before the
failed join: no phantom membership, no rollback. -/
theorem C8_partial_failure_containment
    (env : Env) (st : State) (gi : JoinGameInfo) (anchor : Address)
    (hres : env.resolveAnchor gi.game_code = some anchor)
    (hw : env.entryWriteOk { id := env.agentPubKey, nickname := gi.player_nickname } = true)
    (hl : env.linkWriteOk
      { base := anchor,
        target := env.hashEntry { id := env.agentPubKey, nickname := gi.player_nickname },
        tag := PLAYER_LINK_TAG } = false)
    (hfresh : ∀ l ∈ st.links,
      l.target ≠ env.hashEntry { id := env.agentPubKey, nickname := gi.player_nickname }) :
    ∃ st2, join_game env st gi = (st2, Except.error GameError.linkFailure) ∧
      lookupEntry st2.entries
        (env.hashEntry { id := env.agentPubKey, nickname := gi.player_nickname }) =
        some (Content.profile { id := env.agentPubKey, nickname := gi.player_nickname }) ∧
      st2.links = st.links ∧
      ∀ code, (get_game_players env st2 code).snd = (get_game_players env st code).snd := by
  refine ⟨_, join_game_link_fail st hres hw hl, ?_, rfl, ?_⟩
  · rw [lookupEntry]
    simp
  · intro code
    cases hr : env.resolveAnchor code with
    | none => rw [get_game_players, get_game_players, hr]
    | some a =>
      rw [get_game_players_eq _ hr, get_game_players_eq st hr]
      show fetch_all _ _ = fetch_all _ _
      rw [get_links_links_eq rfl a PLAYER_LINK_TAG]
      refine fetch_all_congr ?_
      intro l hlmem
      obtain ⟨hmem, _, _⟩ := (get_links_mem st a PLAYER_LINK_TAG l).mp hlmem
      exact fetch_profile_ne rfl (hfresh l hmem)

/-- C8 witness: under a substrate rejecting link writes, joining "Al"
into "ABC" from the empty state fails with `linkFailure`, leaves the
profile retrievable at address 209, adds no link, and changes no
listing. -/
theorem C8_witness :
    ∃ st4, join_game envC stEmpty { game_code := "ABC", player_nickname := "Al" } =
        (st4, Except.error GameError.linkFailure) ∧
      lookupEntry st4.entries
        (envC.hashEntry { id := envC.agentPubKey, nickname := "Al" }) =
        some (Content.profile { id := envC.agentPubKey, nickname := "Al" }) ∧
      st4.links = stEmpty.links ∧
      ∀ code, (get_game_players envC st4 code).snd =
        (get_game_players envC stEmpty code).snd :=
  C8_partial_failure_containment envC stEmpty
    { game_code := "ABC", player_nickname := "Al" } 100
    (by decide) (by decide) (by decide)
    (by intro l hlm; exact absurd hlm (List.not_mem_nil l))

/-- C9: `join_game` deduplicates nothing: every successful call, whatever
the prior state (in particular after an identical earlier join), adds
exactly one new entry-write and exactly one new `PLAYER` link. -/
theorem C9_join_not_idempotent
    (env : Env) (st : State) (gi : JoinGameInfo) (st' : State) (addr : Address)
    (h : join_game env st gi = (st', Except.ok addr)) :
    st'.entries =
      (env.hashEntry { id := env.agentPubKey, nickname := gi.player_nickname },
       Content.profile { id := env.agentPubKey, nickname := gi.player_nickname })
      :: st.entries ∧
    st'.links =
      { base := addr,
        target := env.hashEntry { id := env.agentPubKey, nickname := gi.player_nickname },
        tag := PLAYER_LINK_TAG } :: st.links ∧
    st'.entries.length = st.entries.length + 1 ∧
    st'.links.length = st.links.length + 1 := by
  obtain ⟨_, _, _, hst⟩ := join_game_ok h
  subst hst
  exact ⟨rfl, rfl, by simp, by simp⟩

/-- C9 witness: repeating the identical join of "Al" into "ABC" on the
state already containing it writes a second identical entry and a second
identical link. -/
theorem C9_witness :
    st3.entries =
      (envA.hashEntry { id := envA.agentPubKey, nickname := "Al" },
       Content.profile { id := envA.agentPubKey, nickname := "Al" }) :: st1.entries ∧
    st3.links =
      { base := 100,
        target := envA.hashEntry { id := envA.agentPubKey, nickname := "Al" },
        tag := PLAYER_LINK_TAG } :: st1.links ∧
    st3.entries.length = st1.entries.length + 1 ∧
    st3.links.length = st1.links.length + 1 :=
  C9_join_not_idempotent envA st1
    { game_code := "ABC", player_nickname := "Al" } st3 100 (by decide)

/-- C10: `get_game_players` is read-only: on every runtime, state and
game code it hands back the state it was given, unchanged, whether the
result is a member list or an error. -/
theorem C10_list_members_read_only (env : Env) (st : State) (code : String) :
    (get_game_players env st code).fst = st := by
  cases hr : env.resolveAnchor code with
  | none => rw [get_game_players, hr]
  | some a => rw [get_game_players, hr]
